import Mathlib

/-!
Verification of the data normalization, scaling and interpolation engine of
the energy_square_backend repository.  The Python source is shallowly
embedded: numeric values are modelled as exact rationals extended with the
IEEE-754 sentinels NaN and plus/minus Infinity (rounding and overflow are not
modelled, no claim under consideration depends on them), dictionaries with a
fixed key set become Lean structures, and the per-request mutable
configuration state becomes explicit state passing.
-/

/-- Model of a Python float value: either a finite number (an exact rational),
NaN, or a signed infinity.  This mirrors the values that can flow through the
service code, which never depends on rounding. -/
inductive PyFloat where
  | nan : PyFloat
  | inf : PyFloat
  | ninf : PyFloat
  | num : ℚ → PyFloat
deriving DecidableEq, Repr

namespace PyFloat

/-- NaN test, mirroring the Python idiom `value != value`. -/
def isNaN : PyFloat → Bool
  | nan => true
  | _ => false

/-- IEEE addition on the model: NaN is absorbing, opposite infinities give
NaN, an infinity otherwise dominates, finite values add exactly. -/
def add : PyFloat → PyFloat → PyFloat
  | nan, _ => nan
  | _, nan => nan
  | inf, ninf => nan
  | ninf, inf => nan
  | inf, _ => inf
  | _, inf => inf
  | ninf, _ => ninf
  | _, ninf => ninf
  | num a, num b => num (a + b)

/-- IEEE multiplication on the model: NaN is absorbing, infinity times zero is
NaN, infinity times a nonzero value is a signed infinity, finite values
multiply exactly. -/
def mul : PyFloat → PyFloat → PyFloat
  | nan, _ => nan
  | _, nan => nan
  | inf, inf => inf
  | inf, ninf => ninf
  | ninf, inf => ninf
  | ninf, ninf => inf
  | inf, num b => if b = 0 then nan else if 0 < b then inf else ninf
  | num a, inf => if a = 0 then nan else if 0 < a then inf else ninf
  | ninf, num b => if b = 0 then nan else if 0 < b then ninf else inf
  | num a, ninf => if a = 0 then nan else if 0 < a then ninf else inf
  | num a, num b => num (a * b)

/-- IEEE division on the model (the semantics numpy and pandas use for
columnwise division): NaN is absorbing, `0/0` is NaN, a nonzero finite value
divided by zero is a signed infinity, finite values divide exactly.  The
embedded scalar Python code only ever divides by a provably nonzero finite
denominator, so the zero-denominator rows of this table are exercised only by
the pandas efficiency column. -/
def div : PyFloat → PyFloat → PyFloat
  | nan, _ => nan
  | _, nan => nan
  | inf, inf => nan
  | inf, ninf => nan
  | ninf, inf => nan
  | ninf, ninf => nan
  | inf, num b => if 0 ≤ b then inf else ninf
  | ninf, num b => if 0 ≤ b then ninf else inf
  | num _, inf => num 0
  | num _, ninf => num 0
  | num a, num b =>
      if b = 0 then
        if a = 0 then nan else if 0 < a then inf else ninf
      else num (a / b)

/-- Python comparison `value > 0`: false for NaN (any comparison with NaN is
false), true for positive infinity, exact on finite values. -/
def gtZero : PyFloat → Bool
  | nan => false
  | inf => true
  | ninf => false
  | num a => decide (0 < a)

end PyFloat

/-- Embedding of `DataPresentationService._safe_float`
(src/app/services/community_dashboard_service.py, lines 181-190): `None`
maps to `0.0`, a NaN float maps to `0.0`, either infinity maps to `0.0`, and
every other numeric value is returned unchanged.  The result is always a
finite number, so the codomain is `ℚ`. -/
def safe_float : Option PyFloat → ℚ
  | none => 0
  | some PyFloat.nan => 0
  | some PyFloat.inf => 0
  | some PyFloat.ninf => 0
  | some (PyFloat.num q) => q

/-- Embedding of `DataPresentationService.get_energy_source_breakdown`
(src/app/services/community_dashboard_service.py, lines 796-820).  The two
arguments are the already-computed generation and consumption, both finite
(they are outputs of `_safe_float`), so the computation stays in `ℚ`; the
final `_safe_float` calls are the identity on these finite values.  Returns
the pair (solar percentage, grid percentage). -/
def get_energy_source_breakdown (generation consumption : ℚ) : ℚ × ℚ :=
  let total_power := max generation consumption
  if total_power ≤ 0 then (0, 0)
  else
    let solar_percentage := (generation / total_power) * 100
    let grid_percentage :=
      if consumption > generation then
        (max 0 ((consumption - generation) / total_power)) * 100
      else 0
    (solar_percentage, grid_percentage)

/-- Restatement of the source-breakdown contract in the spec's own words
(spec §4.3): total = max(generation, consumption); if total ≤ 0 the result is
{solar: 0, grid: 0}; otherwise solar = generation/total×100 and grid =
(consumption−generation)/total×100 when consumption > generation and 0
otherwise.  Used only to compare against the embedded function. -/
def spec_source_breakdown (generation consumption : ℚ) : ℚ × ℚ :=
  let total := max generation consumption
  if total ≤ 0 then (0, 0)
  else
    ((generation / total) * 100,
      if consumption > generation then ((consumption - generation) / total) * 100
      else 0)

/-- Embedding of the derived efficiency column of
`DataTransformationService.load_solar_plant_data`
(src/app/services/data_transformation.py, line 160):
`(merged_df['AC_POWER'] / merged_df['DC_POWER']).fillna(0)` applied rowwise.
Pandas division follows IEEE semantics and `fillna` replaces only NaN, not
infinities. -/
def efficiency_row (ac dc : PyFloat) : PyFloat :=
  let ratio := ac.div dc
  if ratio.isNaN then PyFloat.num 0 else ratio

/-- C9: the safe-float normalization is the identity on finite numbers and
maps None, NaN and both infinities to 0.0. -/
theorem safe_float_spec :
    safe_float none = 0 ∧
    safe_float (some PyFloat.nan) = 0 ∧
    safe_float (some PyFloat.inf) = 0 ∧
    safe_float (some PyFloat.ninf) = 0 ∧
    (∀ q : ℚ, safe_float (some (PyFloat.num q)) = q) ∧
    safe_float (some (PyFloat.num (7/2))) = 7/2 := by
  refine ⟨rfl, rfl, rfl, rfl, fun q => rfl, rfl⟩

/-- C7: the source breakdown equals the spec formula: with
total = max(generation, consumption), the result is {solar: 0, grid: 0} when
total ≤ 0, and otherwise solar = generation/total×100 and grid =
(consumption−generation)/total×100 when consumption > generation, else 0
(the extra `max 0` in the source is redundant there). -/
theorem source_breakdown_spec (generation consumption : ℚ) :
    get_energy_source_breakdown generation consumption =
      spec_source_breakdown generation consumption := by
  unfold get_energy_source_breakdown spec_source_breakdown
  by_cases htot : max generation consumption ≤ 0
  · simp [htot]
  · simp only [htot, if_false]
    by_cases hgc : consumption > generation
    · have h0 : (0 : ℚ) < max generation consumption := lt_of_not_le htot
      have : (0 : ℚ) ≤ (consumption - generation) / max generation consumption :=
        div_nonneg (by linarith) h0.le
      simp [hgc, max_eq_right this]
    · simp [hgc]

/-- C10: for nonnegative generation and consumption with a positive maximum,
the two percentages lie in [0, 100] and sum to exactly 100, and when
generation ≥ consumption the result is {solar: 100, grid: 0}. -/
theorem source_breakdown_total_split (generation consumption : ℚ)
    (hg : 0 ≤ generation) (hc : 0 ≤ consumption)
    (hpos : 0 < max generation consumption) :
    0 ≤ (get_energy_source_breakdown generation consumption).1 ∧
    (get_energy_source_breakdown generation consumption).1 ≤ 100 ∧
    0 ≤ (get_energy_source_breakdown generation consumption).2 ∧
    (get_energy_source_breakdown generation consumption).2 ≤ 100 ∧
    (get_energy_source_breakdown generation consumption).1 +
      (get_energy_source_breakdown generation consumption).2 = 100 ∧
    (consumption ≤ generation →
      get_energy_source_breakdown generation consumption = (100, 0)) := by
  have htot : ¬ max generation consumption ≤ 0 := not_le.mpr hpos
  unfold get_energy_source_breakdown
  simp only [htot, if_false]
  by_cases hgc : consumption > generation
  · have hmax : max generation consumption = consumption := max_eq_right hgc.le
    have hcpos : 0 < consumption := by
      rw [hmax] at hpos; exact hpos
    have hsub : (0 : ℚ) ≤ (consumption - generation) / consumption :=
      div_nonneg (by linarith) hcpos.le
    simp only [hgc, if_true, hmax, max_eq_right hsub]
    constructor
    · positivity
    refine ⟨?_, ?_, ?_, ?_, ?_⟩
    · have : generation / consumption ≤ 1 := by
        rw [div_le_one hcpos]; linarith
      linarith
    · positivity
    · have : (consumption - generation) / consumption ≤ 1 := by
        rw [div_le_one hcpos]; linarith
      linarith
    · field_simp; ring
    · intro hle; linarith
  · have hle : consumption ≤ generation := not_lt.mp hgc
    have hmax : max generation consumption = generation := max_eq_left hle
    have hgpos : 0 < generation := by rw [hmax] at hpos; exact hpos
    simp only [hgc, if_false, hmax, div_self hgpos.ne', one_mul]
    norm_num

/-- Witness for C10 at generation = 30, consumption = 50. -/
theorem source_breakdown_total_split_witness :
    0 ≤ (get_energy_source_breakdown 30 50).1 ∧
    (get_energy_source_breakdown 30 50).1 ≤ 100 ∧
    0 ≤ (get_energy_source_breakdown 30 50).2 ∧
    (get_energy_source_breakdown 30 50).2 ≤ 100 ∧
    (get_energy_source_breakdown 30 50).1 +
      (get_energy_source_breakdown 30 50).2 = 100 ∧
    ((50 : ℚ) ≤ 30 → get_energy_source_breakdown 30 50 = (100, 0)) :=
  source_breakdown_total_split 30 50 (by norm_num) (by norm_num) (by norm_num)

/-- C6 counterexample: a row with AC_POWER = 1 > 0 and DC_POWER = 0 gets
efficiency +Infinity from `(AC/DC).fillna(0)`, not the 0 the claim states:
pandas division of a positive value by zero yields +Infinity, which `fillna`
does not replace. -/
theorem efficiency_row_dc_zero_counterexample :
    efficiency_row (PyFloat.num 1) (PyFloat.num 0) = PyFloat.inf ∧
    efficiency_row (PyFloat.num 1) (PyFloat.num 0) ≠ PyFloat.num 0 := by
  constructor
  · rfl
  · intro h; exact PyFloat.noConfusion (by rw [← h]; rfl : PyFloat.inf = PyFloat.num 0)

/-- C6 amended: the efficiency field equals AC_POWER / DC_POWER with 0
substituted only when the ratio is NaN (in particular when AC_POWER and
DC_POWER are both 0, or when an operand is NaN); when DC_POWER = 0 and
AC_POWER > 0 the field is +Infinity, and when DC_POWER ≠ 0 the field is the
exact quotient. -/
theorem efficiency_row_spec (ac dc : ℚ) :
    (dc ≠ 0 → efficiency_row (PyFloat.num ac) (PyFloat.num dc) =
      PyFloat.num (ac / dc)) ∧
    (0 < ac → efficiency_row (PyFloat.num ac) (PyFloat.num 0) = PyFloat.inf) ∧
    efficiency_row (PyFloat.num 0) (PyFloat.num 0) = PyFloat.num 0 ∧
    (∀ x : PyFloat, efficiency_row PyFloat.nan x = PyFloat.num 0) := by
  refine ⟨?_, ?_, ?_, ?_⟩
  · intro hdc
    simp [efficiency_row, PyFloat.div, hdc, PyFloat.isNaN]
  · intro hac
    simp [efficiency_row, PyFloat.div, hac.ne', hac, PyFloat.isNaN]
  · rfl
  · intro x; cases x <;> rfl

/-- Witness for C6 amended at AC_POWER = 3, DC_POWER = 4 and the degenerate
rows. -/
theorem efficiency_row_spec_witness :
    efficiency_row (PyFloat.num 3) (PyFloat.num 4) = PyFloat.num (3 / 4) ∧
    efficiency_row (PyFloat.num 3) (PyFloat.num 0) = PyFloat.inf :=
  ⟨(efficiency_row_spec 3 4).1 (by norm_num),
    (efficiency_row_spec 3 4).2.1 (by norm_num)⟩

/-- Embedding of the numeric fields of `CommunityConfigDocument`
(src/app/models/community_config.py).  The datetime metadata fields
(`created_at`, `updated_at`), the MongoDB `_id` and the integer `version`
are bookkeeping not touched by any claim and are omitted; integer-typed
fields are modelled in `ℚ` like the float fields (no claim depends on the
int/float distinction). -/
structure CommunityConfigDocument where
  total_households : ℚ
  average_household_size : ℚ
  total_population : ℚ
  households_with_solar : ℚ
  average_solar_capacity_per_household : ℚ
  total_solar_capacity : ℚ
  solar_panel_efficiency : ℚ
  solar_panel_area_per_household : ℚ
  total_solar_area : ℚ
  average_household_consumption : ℚ
  peak_household_consumption : ℚ
  total_community_consumption : ℚ
  regional_to_community_scaling : ℚ
  demand_scaling_factor : ℚ
  generation_scaling_factor : ℚ
  grid_import_capacity : ℚ
  grid_export_capacity : ℚ
  grid_stability_threshold : ℚ
  battery_capacity_per_household : ℚ
  total_battery_capacity : ℚ
  battery_efficiency : ℚ
  trading_volume_percentage : ℚ
  price_fluctuation_range : ℚ
  average_energy_price : ℚ
  battery_distribution_north : ℚ
  battery_distribution_south : ℚ
  battery_distribution_center : ℚ
  contribution_tier_gold : ℚ
  contribution_tier_silver : ℚ
  contribution_tier_bronze : ℚ
  mock_trader_volume : ℚ
  mock_solar_farm_production : ℚ
  mock_efficiency_high : ℚ
  mock_efficiency_medium : ℚ
  mock_carbon_offset : ℚ
  fallback_regional_scaling : ℚ

/-- Default configuration, from the `Field(default=...)` values of
`CommunityConfigDocument` (src/app/models/community_config.py). -/
def defaultConfig : CommunityConfigDocument :=
  { total_households := 500
    average_household_size := 5/2
    total_population := 1250
    households_with_solar := 300
    average_solar_capacity_per_household := 8
    total_solar_capacity := 2400
    solar_panel_efficiency := 1/5
    solar_panel_area_per_household := 40
    total_solar_area := 12000
    average_household_consumption := 7/2
    peak_household_consumption := 7
    total_community_consumption := 1750
    regional_to_community_scaling := 1/10000
    demand_scaling_factor := 1/4
    generation_scaling_factor := 1
    grid_import_capacity := 2000
    grid_export_capacity := 1500
    grid_stability_threshold := 9/10
    battery_capacity_per_household := 10
    total_battery_capacity := 5000
    battery_efficiency := 19/20
    trading_volume_percentage := 1/10
    price_fluctuation_range := 3/25
    average_energy_price := 1/4
    battery_distribution_north := 2/5
    battery_distribution_south := 7/20
    battery_distribution_center := 1/4
    contribution_tier_gold := 3/20
    contribution_tier_silver := 7/20
    contribution_tier_bronze := 1/2
    mock_trader_volume := 1500
    mock_solar_farm_production := 2500
    mock_efficiency_high := 19/20
    mock_efficiency_medium := 23/25
    mock_carbon_offset := 500
    fallback_regional_scaling := 1/1000 }

/-- Bounds of the request schema `CommunityConfigUpdate`
(src/app/routers/config.py): for each optional field that a configuration
update may supply, the `ge` bound and, when declared, the `le` bound.
FastAPI checks these bounds on the request body before the endpoint handler
runs.  Fields of the document absent from this table
(`generation_scaling_factor` and the derived totals) cannot be supplied
through the update endpoint at all. -/
def boundsTable : List (String × ℚ × Option ℚ) :=
  [("total_households", 1, some 10000),
   ("average_household_size", 1, some 10),
   ("households_with_solar", 0, none),
   ("average_solar_capacity_per_household", 0, some 50),
   ("solar_panel_efficiency", 1/10, some (1/2)),
   ("solar_panel_area_per_household", 0, some 200),
   ("average_household_consumption", 0, some 20),
   ("peak_household_consumption", 0, some 50),
   ("regional_to_community_scaling", 1/100000, some (1/100)),
   ("demand_scaling_factor", 1/100, some 1),
   ("grid_import_capacity", 0, some 10000),
   ("grid_export_capacity", 0, some 10000),
   ("grid_stability_threshold", 1/2, some 1),
   ("battery_capacity_per_household", 0, some 100),
   ("battery_efficiency", 1/2, some 1),
   ("trading_volume_percentage", 0, some 1),
   ("price_fluctuation_range", 0, some 1),
   ("average_energy_price", 0, some 2),
   ("battery_distribution_north", 0, some 1),
   ("battery_distribution_south", 0, some 1),
   ("battery_distribution_center", 0, some 1),
   ("contribution_tier_gold", 0, some 1),
   ("contribution_tier_silver", 0, some 1),
   ("contribution_tier_bronze", 0, some 1),
   ("mock_trader_volume", 0, some 10000),
   ("mock_solar_farm_production", 0, some 10000),
   ("mock_efficiency_high", 0, some 1),
   ("mock_efficiency_medium", 0, some 1),
   ("mock_carbon_offset", 0, some 10000),
   ("fallback_regional_scaling", 1/10000, some (1/100))]

/-- Bounds lookup for one schema field. -/
def lookupBounds (k : String) : Option (ℚ × Option ℚ) :=
  List.lookup k boundsTable

/-- Whether a supplied value satisfies its field's schema bounds.  A name
with no entry in the schema has no bounds to violate. -/
def inBounds (k : String) (v : ℚ) : Bool :=
  match lookupBounds k with
  | none => true
  | some (lo, hi) =>
      decide (lo ≤ v) &&
        (match hi with
         | none => true
         | some h => decide (v ≤ h))

/-- Per-field bounds validation of the supplied values, returning the name of
the first field whose value is out of range (FastAPI reports every failing
field; one failing name is all the claims need). -/
def checkBounds : List (String × ℚ) → Except String Unit
  | [] => Except.ok ()
  | (k, v) :: rest =>
      if inBounds k v then checkBounds rest else Except.error k

/-- The two cross-field `@validator` checks of `CommunityConfigUpdate`
(src/app/routers/config.py): `households_with_solar` may not exceed a
simultaneously supplied `total_households`, and `peak_household_consumption`
may not undercut a simultaneously supplied
`average_household_consumption`. -/
def crossChecks (upd : List (String × ℚ)) : Except String Unit :=
  let okSolar :=
    match List.lookup "households_with_solar" upd,
        List.lookup "total_households" upd with
    | some v, some t => decide (v ≤ t)
    | _, _ => true
  let okPeak :=
    match List.lookup "peak_household_consumption" upd,
        List.lookup "average_household_consumption" upd with
    | some p, some a => decide (a ≤ p)
    | _, _ => true
  if !okSolar then Except.error "households_with_solar"
  else if !okPeak then Except.error "peak_household_consumption"
  else Except.ok ()

/-- Python `int()` on a rational: truncation toward zero. -/
def pyInt (q : ℚ) : ℤ :=
  if 0 ≤ q then ⌊q⌋ else ⌈q⌉

/-- Embedding of `CommunityConfigDocument.calculate_derived_values`
(src/app/models/community_config.py): recomputes the five derived totals
from the primary parameters. -/
def calculate_derived_values (c : CommunityConfigDocument) : CommunityConfigDocument :=
  { c with
    total_population := ((pyInt (c.total_households * c.average_household_size) : ℤ) : ℚ)
    total_solar_capacity := c.households_with_solar * c.average_solar_capacity_per_household
    total_solar_area := c.households_with_solar * c.solar_panel_area_per_household
    total_community_consumption := c.total_households * c.average_household_consumption
    total_battery_capacity := c.total_households * c.battery_capacity_per_household }

/-- Assignment of one named attribute of the document, mirroring Python's
`setattr`; `none` plays the role of `hasattr` being false. -/
def setField (c : CommunityConfigDocument) (k : String) (v : ℚ) :
    Option CommunityConfigDocument :=
  if k = "total_households" then some { c with total_households := v }
  else if k = "average_household_size" then some { c with average_household_size := v }
  else if k = "total_population" then some { c with total_population := v }
  else if k = "households_with_solar" then some { c with households_with_solar := v }
  else if k = "average_solar_capacity_per_household" then
    some { c with average_solar_capacity_per_household := v }
  else if k = "total_solar_capacity" then some { c with total_solar_capacity := v }
  else if k = "solar_panel_efficiency" then some { c with solar_panel_efficiency := v }
  else if k = "solar_panel_area_per_household" then
    some { c with solar_panel_area_per_household := v }
  else if k = "total_solar_area" then some { c with total_solar_area := v }
  else if k = "average_household_consumption" then
    some { c with average_household_consumption := v }
  else if k = "peak_household_consumption" then
    some { c with peak_household_consumption := v }
  else if k = "total_community_consumption" then
    some { c with total_community_consumption := v }
  else if k = "regional_to_community_scaling" then
    some { c with regional_to_community_scaling := v }
  else if k = "demand_scaling_factor" then some { c with demand_scaling_factor := v }
  else if k = "generation_scaling_factor" then
    some { c with generation_scaling_factor := v }
  else if k = "grid_import_capacity" then some { c with grid_import_capacity := v }
  else if k = "grid_export_capacity" then some { c with grid_export_capacity := v }
  else if k = "grid_stability_threshold" then
    some { c with grid_stability_threshold := v }
  else if k = "battery_capacity_per_household" then
    some { c with battery_capacity_per_household := v }
  else if k = "total_battery_capacity" then some { c with total_battery_capacity := v }
  else if k = "battery_efficiency" then some { c with battery_efficiency := v }
  else if k = "trading_volume_percentage" then
    some { c with trading_volume_percentage := v }
  else if k = "price_fluctuation_range" then some { c with price_fluctuation_range := v }
  else if k = "average_energy_price" then some { c with average_energy_price := v }
  else if k = "battery_distribution_north" then
    some { c with battery_distribution_north := v }
  else if k = "battery_distribution_south" then
    some { c with battery_distribution_south := v }
  else if k = "battery_distribution_center" then
    some { c with battery_distribution_center := v }
  else if k = "contribution_tier_gold" then some { c with contribution_tier_gold := v }
  else if k = "contribution_tier_silver" then
    some { c with contribution_tier_silver := v }
  else if k = "contribution_tier_bronze" then
    some { c with contribution_tier_bronze := v }
  else if k = "mock_trader_volume" then some { c with mock_trader_volume := v }
  else if k = "mock_solar_farm_production" then
    some { c with mock_solar_farm_production := v }
  else if k = "mock_efficiency_high" then some { c with mock_efficiency_high := v }
  else if k = "mock_efficiency_medium" then some { c with mock_efficiency_medium := v }
  else if k = "mock_carbon_offset" then some { c with mock_carbon_offset := v }
  else if k = "fallback_regional_scaling" then
    some { c with fallback_regional_scaling := v }
  else none

/-- Embedding of `CommunityConfigDocument.update_and_calculate`
(src/app/models/community_config.py, lines 96-105): apply every supplied
(name, value) pair with `setattr`, silently skipping the protected names,
raising on an unknown name, then recompute the derived values.  The pydantic
model is configured without `validate_assignment`, so `setattr` itself
performs no bounds checking. -/
def update_and_calculate (c : CommunityConfigDocument) :
    List (String × ℚ) → Except String CommunityConfigDocument
  | [] => Except.ok (calculate_derived_values c)
  | (k, v) :: rest =>
      if k = "id" ∨ k = "created_at" ∨ k = "version" then update_and_calculate c rest
      else
        match setField c k v with
        | some c' => update_and_calculate c' rest
        | none => Except.error ("Invalid configuration parameter: " ++ k)

/-- State of one backend process: the contents of the singleton configuration
document, plus the two cache flags.  In the source,
`DataPresentationService._config` and
`CommunityConfigManager._config_cache` are Python references to the very
same `CommunityConfigDocument` object, and `update_config` mutates that
object in place, so a single `config` field models the document contents
seen through MongoDB, the manager cache and the service cache alike; the
Booleans record only whether each cache already holds the reference. -/
structure SysState where
  config : CommunityConfigDocument
  svcConfigCached : Bool
  mgrConfigCached : Bool

/-- Embedding of the `PUT /config` endpoint `update_community_config`
(src/app/routers/config.py) on the process state.  FastAPI first parses the
request body against the `CommunityConfigUpdate` schema: unknown fields are
dropped (pydantic ignores extras), each supplied value is checked against
its `ge`/`le` bounds and the two cross-field validators, and a violation
aborts the request with a validation error naming the field, before the
handler body ever runs.  The handler then rejects an empty update and
otherwise applies `update_and_calculate` and persists the result.  Returns
the response and the post-request state. -/
def update_community_config (s : SysState) (body : List (String × ℚ)) :
    Except String Unit × SysState :=
  let update_data := body.filter (fun kv => (lookupBounds kv.1).isSome)
  match checkBounds update_data with
  | Except.error f => (Except.error f, s)
  | Except.ok () =>
      match crossChecks update_data with
      | Except.error f => (Except.error f, s)
      | Except.ok () =>
          if update_data.isEmpty then
            (Except.error "No configuration parameters provided", s)
          else
            match update_and_calculate s.config update_data with
            | Except.error e => (Except.error e, s)
            | Except.ok c' =>
                (Except.ok (), { s with config := c', mgrConfigCached := true })

/-- Helper for C2: if some supplied pair violates its bounds, the sequential
per-field check reports a violating field. -/
theorem checkBounds_error_of_mem :
    ∀ {l : List (String × ℚ)}, (∃ kv ∈ l, inBounds kv.1 kv.2 = false) →
      ∃ f, checkBounds l = Except.error f ∧
        ∃ v, (f, v) ∈ l ∧ inBounds f v = false := by
  intro l
  induction l with
  | nil => rintro ⟨kv, hmem, _⟩; exact absurd hmem (List.not_mem_nil kv)
  | cons hd tl ih =>
      rintro ⟨⟨k, v⟩, hmem, hbad⟩
      by_cases hhd : inBounds hd.1 hd.2 = true
      · have hne : (k, v) ≠ hd := by
          rintro rfl; rw [hhd] at hbad; cases hbad
        have hmemtl : (k, v) ∈ tl := by
          rcases List.mem_cons.mp hmem with h | h
          · exact absurd h hne
          · exact h
        obtain ⟨f, herr, v', hm, hb⟩ := ih ⟨(k, v), hmemtl, hbad⟩
        refine ⟨f, ?_, v', List.mem_cons_of_mem hd hm, hb⟩
        obtain ⟨k0, v0⟩ := hd
        simpa [checkBounds, hhd] using herr
      · obtain ⟨k0, v0⟩ := hd
        have hf : inBounds k0 v0 = false := by
          simpa using hhd
        exact ⟨k0, by simp [checkBounds, hf], v0, List.mem_cons_self _ _,
          hf⟩

/-- C2: a configuration update request supplying a value that violates its
field's schema bounds is rejected with a validation error naming an
offending field, and the process state — the stored configuration together
with its cached copies — is left entirely unchanged. -/
theorem config_update_rejected (s : SysState) (body : List (String × ℚ))
    (h : ∃ kv ∈ body, inBounds kv.1 kv.2 = false) :
    (update_community_config s body).2 = s ∧
    ∃ f, (update_community_config s body).1 = Except.error f ∧
      ∃ v, (f, v) ∈ body ∧ inBounds f v = false := by
  obtain ⟨⟨k, v⟩, hmem, hbad⟩ := h
  have hk : (lookupBounds k).isSome = true := by
    unfold inBounds at hbad
    cases hl : lookupBounds k with
    | none => rw [hl] at hbad; cases hbad
    | some b => simp
  have hmem' : (k, v) ∈ body.filter (fun kv => (lookupBounds kv.1).isSome) :=
    List.mem_filter.mpr ⟨hmem, hk⟩
  obtain ⟨f, herr, v', hm, hb⟩ :=
    checkBounds_error_of_mem ⟨(k, v), hmem', hbad⟩
  have hmbody : (f, v') ∈ body := List.mem_of_mem_filter hm
  unfold update_community_config
  simp only [herr]
  exact ⟨trivial, f, by simp, v', hmbody, hb⟩

/-- Witness for C2: a request setting regional_to_community_scaling = 5
(above its upper bound 0.01) against the default configuration is rejected
naming that field, and the state is untouched. -/
theorem config_update_rejected_witness :
    (update_community_config ⟨defaultConfig, false, false⟩
        [("regional_to_community_scaling", 5)]).2 =
      ⟨defaultConfig, false, false⟩ ∧
    ∃ f, (update_community_config ⟨defaultConfig, false, false⟩
        [("regional_to_community_scaling", 5)]).1 = Except.error f ∧
      ∃ v, (f, v) ∈ [(("regional_to_community_scaling" : String), (5 : ℚ))] ∧
        inBounds f v = false :=
  config_update_rejected ⟨defaultConfig, false, false⟩
    [("regional_to_community_scaling", 5)]
    ⟨("regional_to_community_scaling", 5), by simp,
      by simp [inBounds, lookupBounds, boundsTable, List.lookup]; norm_num⟩

/-- Value held under one region key of a raw demand record: the key may be
missing from the dict (`d.get(region, 0)` then yields the integer 0), may
hold None (JSON null), or may hold a float. -/
inductive DVal where
  | missing : DVal
  | null : DVal
  | fl : PyFloat → DVal
deriving DecidableEq, Repr

/-- One record of `market_data['demand_data']`: the `hour` key (records
without it are dropped wherever the code reads hours) and the values of the
seven enumerated regions, indexed in the source's fixed order Calabria,
Sardegna, Sicilia, North, Central-northern Italy, Centeral-southern Italy,
Southern-Italy. -/
structure DemandRecord where
  hour : Option ℤ
  vals : Fin 7 → DVal

/-- One iteration of the region-summing loop shared by
`get_current_consumption`, `_calculate_real_consumption` and
`_get_hour_consumption` (src/app/services/community_dashboard_service.py):
a value is added unless it is None or a NaN float; a missing key contributes
the default 0. -/
def regionStep (r : DemandRecord) (acc : PyFloat) (i : Fin 7) : PyFloat :=
  match r.vals i with
  | DVal.missing => acc.add (PyFloat.num 0)
  | DVal.null => acc
  | DVal.fl f => if f.isNaN then acc else acc.add f

/-- Indices of the seven regions, mirroring the literal region-name list the
source iterates over. -/
def regionIdx : List (Fin 7) := [0, 1, 2, 3, 4, 5, 6]

/-- The `regional_demand` accumulator of one record: sum over the seven
enumerated regions, skipping None and NaN values. -/
def regionalDemand (r : DemandRecord) : PyFloat :=
  regionIdx.foldl (regionStep r) (PyFloat.num 0)

/-- One iteration of the record-averaging loop: a record is kept when its
regional demand compares strictly greater than zero, adding to the running
`total_demand_mw` and bumping the `valid_periods` count. -/
def demandStep (acc : PyFloat × ℕ) (r : DemandRecord) : PyFloat × ℕ :=
  let rd := regionalDemand r
  if rd.gtZero then (acc.1.add rd, acc.2 + 1) else acc

/-- The record-averaging loop, iterated over the records of one hour. -/
def demandLoop (recs : List DemandRecord) : PyFloat × ℕ :=
  recs.foldl demandStep (PyFloat.num 0, 0)

/-- Embedding of `DataPresentationService._get_hour_consumption`
(src/app/services/community_dashboard_service.py, lines 556-582): average
the positive regional demands of the records of the given hour and scale by
1000 and by `regional_to_community_scaling` read from the configuration at
call time. -/
def get_hour_consumption (hour : ℤ) (demand_data : List DemandRecord)
    (config : CommunityConfigDocument) : ℚ :=
  let hour_data := demand_data.filter (fun d => decide (d.hour = some hour))
  if hour_data.isEmpty then 0
  else
    let acc := demandLoop hour_data
    if 0 < acc.2 then
      safe_float (some (((acc.1.div (PyFloat.num acc.2)).mul
        (PyFloat.num 1000)).mul (PyFloat.num config.regional_to_community_scaling)))
    else 0

/-- Hours that have demand data: the `hour` values of the records that carry
one, as collected by the comprehension in `_interpolate_consumption`. -/
def dataHours (demand_data : List DemandRecord) : List ℤ :=
  demand_data.filterMap (fun d => d.hour)

/-- Scanning loop of `_interpolate_consumption`: walk the sorted hour list
keeping the last hour strictly below the target, and stop at the first hour
strictly above it (the `break`). -/
def findBeforeAfter (target : ℤ) : List ℤ → Option ℤ → Option ℤ × Option ℤ
  | [], before => (before, none)
  | h :: rest, before =>
      if h < target then findBeforeAfter target rest (some h)
      else if target < h then (before, some h)
      else findBeforeAfter target rest before

/-- Python's `sorted` on the hour list.  Sorting integers has a unique
result, so the stable insertion sort stands in for Python's timsort. -/
def sortHours (l : List ℤ) : List ℤ :=
  l.insertionSort (fun a b => a ≤ b)

/-- Embedding of `DataPresentationService._interpolate_consumption`
(src/app/services/community_dashboard_service.py, lines 516-554): collect
and sort the hours that have data, locate the nearest hours strictly below
and strictly above the target, use the single available side unchanged, or
interpolate linearly between the two consumptions; the final `_safe_float`
is the identity because both endpoint consumptions are already finite. -/
def interpolate_consumption (target_hour : ℤ) (demand_data : List DemandRecord)
    (config : CommunityConfigDocument) : ℚ :=
  let available_hours := sortHours (dataHours demand_data)
  if available_hours.isEmpty then 0
  else
    match findBeforeAfter target_hour available_hours none with
    | (none, some after_hour) => get_hour_consumption after_hour demand_data config
    | (some before_hour, none) => get_hour_consumption before_hour demand_data config
    | (none, none) => 0
    | (some before_hour, some after_hour) =>
        let before_consumption := get_hour_consumption before_hour demand_data config
        let after_consumption := get_hour_consumption after_hour demand_data config
        if after_hour = before_hour then before_consumption
        else
          let weight : ℚ :=
            ((target_hour : ℚ) - (before_hour : ℚ)) /
              ((after_hour : ℚ) - (before_hour : ℚ))
          before_consumption + weight * (after_consumption - before_consumption)

/-- Embedding of `DataPresentationService.get_current_consumption`
(src/app/services/community_dashboard_service.py, lines 724-774), with
`datetime.now().hour` passed in as `current_hour`: empty data gives 0; an
hour with records averages their positive regional demands and scales the
result; an hour without records falls back to interpolation. -/
def get_current_consumption (current_hour : ℤ) (demand_data : List DemandRecord)
    (config : CommunityConfigDocument) : ℚ :=
  if demand_data.isEmpty then 0
  else
    let current_hour_data :=
      demand_data.filter (fun d => decide (d.hour = some current_hour))
    if current_hour_data.isEmpty then
      interpolate_consumption current_hour demand_data config
    else
      let acc := demandLoop current_hour_data
      if 0 < acc.2 then
        safe_float (some (((acc.1.div (PyFloat.num acc.2)).mul
          (PyFloat.num 1000)).mul
            (PyFloat.num config.regional_to_community_scaling)))
      else 0

/-- One row of a plant's hourly series in the transformed snapshot, with the
fields `get_current_generation` reads: the derived hour and the AC power
(`d.get('AC_POWER', 0)`; a missing key behaves as the value 0). -/
structure SolarRow where
  hour : Option ℤ
  AC_POWER : PyFloat

/-- Per-plant inner computation of `get_current_generation`
(src/app/services/community_dashboard_service.py, lines 696-711): filter the
hourly rows for the hour, keep the strictly positive AC powers, and average
them; 0 when the hour has no rows or no positive power. -/
def plant_hour_avg (hour : ℤ) (plant : List SolarRow) : PyFloat :=
  let hour_data := plant.filter (fun d => decide (d.hour = some hour))
  if hour_data.isEmpty then PyFloat.num 0
  else
    let powers :=
      (hour_data.filter (fun d => d.AC_POWER.gtZero)).map (fun d => d.AC_POWER)
    if powers.isEmpty then PyFloat.num 0
    else (powers.foldl PyFloat.add (PyFloat.num 0)).div (PyFloat.num powers.length)

/-- Embedding of `DataPresentationService.get_current_generation`
(src/app/services/community_dashboard_service.py, lines 682-722), with
`datetime.now().hour` passed in: if either plant's hourly series is empty
the function returns 0 before any per-hour computation; otherwise it sums
the two per-plant hourly averages, unscaled. -/
def get_current_generation (current_hour : ℤ)
    (plant_1_data plant_2_data : List SolarRow) : ℚ :=
  if plant_1_data.isEmpty || plant_2_data.isEmpty then 0
  else
    safe_float (some ((plant_hour_avg current_hour plant_1_data).add
      (plant_hour_avg current_hour plant_2_data)))

/-- The second component of the scanning loop is the first hour of the list
strictly above the target (true for any list, sorted or not, because the
loop breaks there). -/
theorem findBeforeAfter_snd (t : ℤ) :
    ∀ (l : List ℤ) (acc : Option ℤ),
      (findBeforeAfter t l acc).2 =
        (l.filter (fun h => decide (t < h))).head? := by
  intro l
  induction l with
  | nil => intro acc; rfl
  | cons h rest ih =>
      intro acc
      rcases lt_trichotomy h t with hlt | heq | hgt
      · have h1 : ¬ t < h := by omega
        simp only [findBeforeAfter, if_pos hlt, List.filter_cons,
          decide_eq_true_eq, h1, if_false, ih]
      · subst heq
        simp only [findBeforeAfter, lt_irrefl, if_false, List.filter_cons,
          decide_eq_true_eq, ih]
      · have h1 : ¬ h < t := by omega
        simp only [findBeforeAfter, if_neg h1, if_pos hgt, List.filter_cons,
          decide_eq_true_eq, hgt, if_true, List.head?_cons]

/-- On a sorted list, the first component of the scanning loop is the fold
that keeps the last hour strictly below the target. -/
theorem findBeforeAfter_fst (t : ℤ) :
    ∀ (l : List ℤ), l.Sorted (· ≤ ·) → ∀ (acc : Option ℤ),
      (findBeforeAfter t l acc).1 =
        (l.filter (fun h => decide (h < t))).foldl (fun _ h => some h) acc := by
  intro l
  induction l with
  | nil => intro _ acc; rfl
  | cons h rest ih =>
      intro hsorted acc
      have hsr : rest.Sorted (· ≤ ·) := hsorted.of_cons
      have hall : ∀ x ∈ rest, h ≤ x := (List.sorted_cons.mp hsorted).1
      rcases lt_trichotomy h t with hlt | heq | hgt
      · simp only [findBeforeAfter, if_pos hlt, List.filter_cons,
          decide_eq_true_eq, hlt, if_true, List.foldl_cons, ih hsr]
      · subst heq
        have hnone : rest.filter (fun x => decide (x < h)) = [] :=
          List.filter_eq_nil_iff.mpr
            (fun x hx => by simp only [decide_eq_true_eq]; exact not_lt.mpr (hall x hx))
        simp only [findBeforeAfter, lt_irrefl, if_false, List.filter_cons,
          decide_eq_true_eq, ih hsr, hnone, List.foldl_nil]
      · have h1 : ¬ h < t := by omega
        have hnone : rest.filter (fun x => decide (x < t)) = [] :=
          List.filter_eq_nil_iff.mpr
            (fun x hx => by
              simp only [decide_eq_true_eq]
              exact not_lt.mpr (le_trans hgt.le (hall x hx)))
        simp only [findBeforeAfter, if_neg h1, if_pos hgt, List.filter_cons,
          decide_eq_true_eq, h1, if_false, hnone, List.foldl_nil]

/-- The fold that keeps the last element seen returns the last element of a
nonempty list, for any accumulator. -/
theorem foldl_pick_last :
    ∀ (l : List ℤ) (acc : Option ℤ) (hne : l ≠ []),
      l.foldl (fun _ h => some h) acc = some (l.getLast hne) := by
  intro l
  induction l with
  | nil => intro acc h; exact absurd rfl h
  | cons x xs ih =>
      intro acc h
      cases xs with
      | nil => rfl
      | cons y ys =>
          rw [List.foldl_cons, ih (some x) (by simp), List.getLast_cons_cons]

/-- Every element of a nonempty sorted list is at most its last element. -/
theorem sorted_le_getLast :
    ∀ {l : List ℤ}, l.Sorted (· ≤ ·) → ∀ x ∈ l, ∀ (h : l ≠ []), x ≤ l.getLast h := by
  intro l
  induction l with
  | nil => intro _ x hx; exact absurd hx (List.not_mem_nil x)
  | cons a as ih =>
      intro hs x hx h
      cases as with
      | nil =>
          rcases List.mem_cons.mp hx with rfl | hx'
          · rfl
          · exact absurd hx' (List.not_mem_nil x)
      | cons b bs =>
          rw [List.getLast_cons_cons]
          rcases List.mem_cons.mp hx with rfl | hx'
          · exact le_trans ((List.sorted_cons.mp hs).1 b (by simp))
              (ih hs.of_cons b (by simp) (by simp))
          · exact ih hs.of_cons x hx' (by simp)

/-- The head of a nonempty sorted list is at most every element. -/
theorem sorted_head_le :
    ∀ {l : List ℤ}, l.Sorted (· ≤ ·) → ∀ x ∈ l, ∀ (h : l ≠ []), l.head h ≤ x := by
  intro l
  cases l with
  | nil => intro _ x hx; exact absurd hx (List.not_mem_nil x)
  | cons a as =>
      intro hs x hx _
      rcases List.mem_cons.mp hx with rfl | hx'
      · rfl
      · exact (List.sorted_cons.mp hs).1 x hx'

/-- Sorting the hour list is a permutation and yields a sorted list. -/
theorem sortHours_perm (l : List ℤ) : (sortHours l).Perm l :=
  List.perm_insertionSort _ l

/-- Sortedness of the sorted hour list. -/
theorem sortHours_sorted (l : List ℤ) : (sortHours l).Sorted (· ≤ ·) :=
  List.sorted_insertionSort _ l

/-- Membership is invariant under sorting the hour list. -/
theorem sortHours_mem (l : List ℤ) (x : ℤ) : x ∈ sortHours l ↔ x ∈ l :=
  (sortHours_perm l).mem_iff

/-- A list with a member sorts to a nonempty list. -/
theorem sortHours_isEmpty_false (l : List ℤ) (x : ℤ) (hx : x ∈ l) :
    (sortHours l).isEmpty = false := by
  have hne : sortHours l ≠ [] := List.ne_nil_of_mem ((sortHours_mem l x).mpr hx)
  cases hE : (sortHours l).isEmpty
  · rfl
  · exact absurd (List.isEmpty_iff.mp hE) hne

/-- With no data hour strictly below the target the loop finds no `before`
hour. -/
theorem fba_fst_none (t : ℤ) (l : List ℤ) (hnone : ∀ h ∈ l, ¬ h < t) :
    (findBeforeAfter t (sortHours l) none).1 = none := by
  rw [findBeforeAfter_fst t _ (sortHours_sorted l)]
  have hnil : (sortHours l).filter (fun h => decide (h < t)) = [] :=
    List.filter_eq_nil_iff.mpr
      (fun x hx => by
        simp only [decide_eq_true_eq]
        exact hnone x ((sortHours_mem l x).mp hx))
  rw [hnil]
  rfl

/-- With no data hour strictly above the target the loop finds no `after`
hour. -/
theorem fba_snd_none (t : ℤ) (l : List ℤ) (hnone : ∀ h ∈ l, ¬ t < h) :
    (findBeforeAfter t (sortHours l) none).2 = none := by
  rw [findBeforeAfter_snd]
  have hnil : (sortHours l).filter (fun h => decide (t < h)) = [] :=
    List.filter_eq_nil_iff.mpr
      (fun x hx => by
        simp only [decide_eq_true_eq]
        exact hnone x ((sortHours_mem l x).mp hx))
  rw [hnil]
  rfl

/-- The loop's `before` hour is the greatest data hour strictly below the
target. -/
theorem fba_fst_some (t b : ℤ) (l : List ℤ) (hb : b ∈ l) (hbt : b < t)
    (hmax : ∀ h ∈ l, h < t → h ≤ b) :
    (findBeforeAfter t (sortHours l) none).1 = some b := by
  rw [findBeforeAfter_fst t _ (sortHours_sorted l)]
  have hbmem : b ∈ (sortHours l).filter (fun h => decide (h < t)) :=
    List.mem_filter.mpr ⟨(sortHours_mem l b).mpr hb, by simpa using hbt⟩
  have hne : (sortHours l).filter (fun h => decide (h < t)) ≠ [] :=
    List.ne_nil_of_mem hbmem
  rw [foldl_pick_last _ none hne]
  have hsorted : ((sortHours l).filter (fun h => decide (h < t))).Sorted (· ≤ ·) :=
    (sortHours_sorted l).filter _
  have hlm := List.mem_filter.mp (List.getLast_mem hne)
  have h1 : ((sortHours l).filter (fun h => decide (h < t))).getLast hne ≤ b :=
    hmax _ ((sortHours_mem l _).mp hlm.1) (by simpa using hlm.2)
  have h2 : b ≤ ((sortHours l).filter (fun h => decide (h < t))).getLast hne :=
    sorted_le_getLast hsorted b hbmem hne
  rw [le_antisymm h1 h2]

/-- The loop's `after` hour is the least data hour strictly above the
target. -/
theorem fba_snd_some (t a : ℤ) (l : List ℤ) (ha : a ∈ l) (hta : t < a)
    (hmin : ∀ h ∈ l, t < h → a ≤ h) :
    (findBeforeAfter t (sortHours l) none).2 = some a := by
  rw [findBeforeAfter_snd]
  have hamem : a ∈ (sortHours l).filter (fun h => decide (t < h)) :=
    List.mem_filter.mpr ⟨(sortHours_mem l a).mpr ha, by simpa using hta⟩
  have hne : (sortHours l).filter (fun h => decide (t < h)) ≠ [] :=
    List.ne_nil_of_mem hamem
  rw [List.head?_eq_head hne]
  have hsorted : ((sortHours l).filter (fun h => decide (t < h))).Sorted (· ≤ ·) :=
    (sortHours_sorted l).filter _
  have hhm := List.mem_filter.mp (List.head_mem hne)
  have h1 : ((sortHours l).filter (fun h => decide (t < h))).head hne ≤ a :=
    sorted_head_le hsorted a hamem hne
  have h2 : a ≤ ((sortHours l).filter (fun h => decide (t < h))).head hne :=
    hmin _ ((sortHours_mem l _).mp hhm.1) (by simpa using hhm.2)
  rw [le_antisymm h1 h2]

/-- C1: when no record carries the target hour, the interpolated consumption
is 0 if no hours have data at all; equals the single available side's
hour-consumption unmodified if data exists on only one side of the target;
and equals before_value + (target−before)/(after−before) ×
(after_value−before_value) if hours with data exist strictly below and
strictly above, where before/after are the nearest such hours. -/
theorem interpolate_consumption_spec (demand_data : List DemandRecord)
    (config : CommunityConfigDocument) (t : ℤ)
    (hno : ∀ r ∈ demand_data, r.hour ≠ some t) :
    (dataHours demand_data = [] →
      interpolate_consumption t demand_data config = 0) ∧
    (∀ a ∈ dataHours demand_data, t < a →
      (∀ h ∈ dataHours demand_data, t < h → a ≤ h) →
      (∀ h ∈ dataHours demand_data, ¬ h < t) →
      interpolate_consumption t demand_data config =
        get_hour_consumption a demand_data config) ∧
    (∀ b ∈ dataHours demand_data, b < t →
      (∀ h ∈ dataHours demand_data, h < t → h ≤ b) →
      (∀ h ∈ dataHours demand_data, ¬ t < h) →
      interpolate_consumption t demand_data config =
        get_hour_consumption b demand_data config) ∧
    (∀ b ∈ dataHours demand_data, ∀ a ∈ dataHours demand_data,
      b < t → t < a →
      (∀ h ∈ dataHours demand_data, h < t → h ≤ b) →
      (∀ h ∈ dataHours demand_data, t < h → a ≤ h) →
      interpolate_consumption t demand_data config =
        get_hour_consumption b demand_data config +
          ((t : ℚ) - (b : ℚ)) / ((a : ℚ) - (b : ℚ)) *
            (get_hour_consumption a demand_data config -
              get_hour_consumption b demand_data config)) := by
  refine ⟨?_, ?_, ?_, ?_⟩
  · intro hE
    simp [interpolate_consumption, hE, sortHours, List.insertionSort]
  · intro a ha hta hmin hnoneb
    have hmatch : findBeforeAfter t (sortHours (dataHours demand_data)) none =
        (none, some a) := by
      have h1 := fba_fst_none t (dataHours demand_data) hnoneb
      have h2 := fba_snd_some t a (dataHours demand_data) ha hta hmin
      exact Prod.ext h1 h2
    have hempty := sortHours_isEmpty_false (dataHours demand_data) a ha
    simp only [interpolate_consumption, hempty, Bool.false_eq_true, if_false,
      hmatch]
  · intro b hb hbt hmax hnonea
    have hmatch : findBeforeAfter t (sortHours (dataHours demand_data)) none =
        (some b, none) := by
      have h1 := fba_fst_some t b (dataHours demand_data) hb hbt hmax
      have h2 := fba_snd_none t (dataHours demand_data) hnonea
      exact Prod.ext h1 h2
    have hempty := sortHours_isEmpty_false (dataHours demand_data) b hb
    simp only [interpolate_consumption, hempty, Bool.false_eq_true, if_false,
      hmatch]
  · intro b hb a ha hbt hta hmax hmin
    have hmatch : findBeforeAfter t (sortHours (dataHours demand_data)) none =
        (some b, some a) := by
      have h1 := fba_fst_some t b (dataHours demand_data) hb hbt hmax
      have h2 := fba_snd_some t a (dataHours demand_data) ha hta hmin
      exact Prod.ext h1 h2
    have hempty := sortHours_isEmpty_false (dataHours demand_data) a ha
    have hab : ¬ a = b := by omega
    simp only [interpolate_consumption, hempty, Bool.false_eq_true, if_false,
      hmatch, hab, if_false]

/-- Demand record for concrete checks: the given hour, the first region
(Calabria) set to the given finite value in MW, every other region key
absent. -/
def sampleRec (h : ℤ) (v : ℚ) : DemandRecord :=
  ⟨some h, fun i => if i = 0 then DVal.fl (PyFloat.num v) else DVal.missing⟩

/-- Configuration for concrete checks: the defaults with
regional_to_community_scaling raised to its upper bound 0.01, so a record
worth x MW yields an hour-consumption of 10·x kW. -/
def sampleCfg : CommunityConfigDocument :=
  { defaultConfig with regional_to_community_scaling := 1/100 }

/-- Witness for C1: with data at hours 6 (hour-consumption 100) and 10
(hour-consumption 200) and none at hour 8, interpolation at hour 8 gives
150; with data only at hour 10, interpolation at hour 3 gives 200. -/
theorem interpolate_consumption_spec_witness :
    interpolate_consumption 8 [sampleRec 6 10, sampleRec 10 20] sampleCfg = 150 ∧
    interpolate_consumption 3 [sampleRec 10 20] sampleCfg = 200 := by
  constructor
  · have h := (interpolate_consumption_spec [sampleRec 6 10, sampleRec 10 20]
        sampleCfg 8
        (by rintro r hr; fin_cases hr <;> simp [sampleRec])).2.2.2 6
        (by decide) 10 (by decide) (by decide) (by decide) (by decide) (by decide)
    rw [h]
    norm_num +decide [get_hour_consumption, demandLoop, demandStep, regionalDemand,
      regionIdx, regionStep, sampleRec, sampleCfg, defaultConfig, PyFloat.add,
      PyFloat.isNaN, PyFloat.gtZero, PyFloat.div, PyFloat.mul, safe_float]
  · have h := (interpolate_consumption_spec [sampleRec 10 20] sampleCfg 3
        (by rintro r hr; fin_cases hr <;> simp [sampleRec])).2.1 10
        (by decide) (by decide) (by decide) (by decide)
    rw [h]
    norm_num +decide [get_hour_consumption, demandLoop, demandStep, regionalDemand,
      regionIdx, regionStep, sampleRec, sampleCfg, defaultConfig, PyFloat.add,
      PyFloat.isNaN, PyFloat.gtZero, PyFloat.div, PyFloat.mul, safe_float]


/-- Spec-side value of one region entry: null and NaN are skipped (worth
nothing to the sum), a finite value counts with its value, a missing key is
the default 0.  Infinities are excluded by the finiteness hypothesis of the
theorems that use this. -/
def specRegionValue : DVal → ℚ
  | DVal.fl (PyFloat.num q) => q
  | _ => 0

/-- Regional demand of a record as the claim states it: the sum of the seven
enumerated region values, skipping null/NaN. -/
def specRegionalDemand (r : DemandRecord) : ℚ :=
  (regionIdx.map (fun i => specRegionValue (r.vals i))).sum

/-- A record whose region entries carry no infinity (they may be missing,
null, NaN or finite). -/
def FiniteRecord (r : DemandRecord) : Prop :=
  ∀ i : Fin 7, r.vals i ≠ DVal.fl PyFloat.inf ∧ r.vals i ≠ DVal.fl PyFloat.ninf

/-- On an infinity-free record, the region-summing loop computes exactly the
spec-side rational sum. -/
theorem regionalDemand_eq (r : DemandRecord) (hr : FiniteRecord r) :
    regionalDemand r = PyFloat.num (specRegionalDemand r) := by
  have aux : ∀ (l : List (Fin 7)) (acc : ℚ),
      l.foldl (regionStep r) (PyFloat.num acc) =
        PyFloat.num (acc + (l.map (fun i => specRegionValue (r.vals i))).sum) := by
    intro l
    induction l with
    | nil => intro acc; simp
    | cons i l ih =>
        intro acc
        rcases hv : r.vals i with _ | _ | f
        · rw [List.foldl_cons]
          have hstep : regionStep r (PyFloat.num acc) i = PyFloat.num (acc + 0) := by
            simp [regionStep, hv, PyFloat.add]
          rw [hstep, ih]
          simp [specRegionValue, hv]
        · rw [List.foldl_cons]
          have hstep : regionStep r (PyFloat.num acc) i = PyFloat.num acc := by
            simp [regionStep, hv]
          rw [hstep, ih]
          simp [specRegionValue, hv]
        · rcases f with _ | _ | _ | q
          · rw [List.foldl_cons]
            have hstep : regionStep r (PyFloat.num acc) i = PyFloat.num acc := by
              simp [regionStep, hv, PyFloat.isNaN]
            rw [hstep, ih]
            simp [specRegionValue, hv]
          · exact absurd hv (hr i).1
          · exact absurd hv (hr i).2
          · rw [List.foldl_cons]
            have hstep : regionStep r (PyFloat.num acc) i = PyFloat.num (acc + q) := by
              simp [regionStep, hv, PyFloat.isNaN, PyFloat.add]
            rw [hstep, ih]
            have : specRegionValue (r.vals i) = q := by rw [hv]; rfl
            rw [List.map_cons, List.sum_cons, this]
            congr 1
            ring
  have h0 := aux regionIdx 0
  rw [regionalDemand, h0, specRegionalDemand, zero_add]

/-- On infinity-free records, the averaging loop computes the spec-side sum
of the kept (strictly positive) regional demands together with their
count. -/
theorem demandLoop_eq (l : List DemandRecord) (hfin : ∀ r ∈ l, FiniteRecord r) :
    demandLoop l =
      (PyFloat.num
        (((l.filter (fun r => decide (0 < specRegionalDemand r))).map
          specRegionalDemand).sum),
       (l.filter (fun r => decide (0 < specRegionalDemand r))).length) := by
  have aux : ∀ (l : List DemandRecord), (∀ r ∈ l, FiniteRecord r) →
      ∀ (acc : ℚ) (n : ℕ),
      l.foldl demandStep (PyFloat.num acc, n) =
      (PyFloat.num
        (acc + ((l.filter (fun r => decide (0 < specRegionalDemand r))).map
          specRegionalDemand).sum),
       n + (l.filter (fun r => decide (0 < specRegionalDemand r))).length) := by
    intro l
    induction l with
    | nil => intro _ acc n; simp
    | cons r l ih =>
        intro hf acc n
        have hrd := regionalDemand_eq r (hf r (List.mem_cons_self r l))
        have hrest : ∀ x ∈ l, FiniteRecord x :=
          fun x hx => hf x (List.mem_cons_of_mem r hx)
        rw [List.foldl_cons]
        by_cases hpos : 0 < specRegionalDemand r
        · have hstep : demandStep (PyFloat.num acc, n) r =
              (PyFloat.num (acc + specRegionalDemand r), n + 1) := by
            simp [demandStep, hrd, PyFloat.gtZero, hpos, PyFloat.add]
          rw [hstep, ih hrest]
          rw [List.filter_cons_of_pos (by simpa using hpos), List.map_cons,
            List.sum_cons, List.length_cons]
          refine Prod.ext ?_ ?_
          · simp only []
            congr 1
            ring
          · simp only []
            omega
        · have hstep : demandStep (PyFloat.num acc, n) r = (PyFloat.num acc, n) := by
            simp [demandStep, hrd, PyFloat.gtZero, hpos]
          rw [hstep, ih hrest]
          rw [List.filter_cons_of_neg (by simpa using hpos)]
  have h0 := aux l hfin 0 0
  rw [demandLoop, h0, zero_add]
  norm_num

/-- The scaling pipeline of the consumption functions on finite values:
dividing, scaling by 1000 and by the configuration factor, then safe-float,
is the plain rational expression once the denominator is nonzero. -/
theorem safe_float_scale (S scaling : ℚ) (len : ℕ) (hl : ((len : ℚ)) ≠ 0) :
    safe_float (some ((((PyFloat.num S).div (PyFloat.num (len : ℚ))).mul
      (PyFloat.num 1000)).mul (PyFloat.num scaling))) =
      S / (len : ℚ) * 1000 * scaling := by
  have h1 : (PyFloat.num S).div (PyFloat.num (len : ℚ)) =
      PyFloat.num (S / (len : ℚ)) := by
    simp only [PyFloat.div]
    rw [if_neg hl]
  rw [h1]
  rfl

/-- C4: with at least one record matching the current hour and at least one
kept record, current consumption equals avg_MW × 1000 ×
regional_to_community_scaling, where avg_MW averages the regional demands
(sums of the seven region values, null/NaN skipped) over the matching
records whose regional demand is strictly positive; and with zero matching
records, interpolation is invoked instead. -/
theorem get_current_consumption_spec (current_hour : ℤ)
    (demand_data : List DemandRecord) (config : CommunityConfigDocument)
    (hfin : ∀ r ∈ demand_data, FiniteRecord r) :
    (∀ cur kept,
      cur = demand_data.filter (fun d => decide (d.hour = some current_hour)) →
      kept = cur.filter (fun r => decide (0 < specRegionalDemand r)) →
      cur ≠ [] → kept ≠ [] →
      get_current_consumption current_hour demand_data config =
        (kept.map specRegionalDemand).sum / (kept.length : ℚ) * 1000 *
          config.regional_to_community_scaling) ∧
    (demand_data ≠ [] →
      demand_data.filter (fun d => decide (d.hour = some current_hour)) = [] →
      get_current_consumption current_hour demand_data config =
        interpolate_consumption current_hour demand_data config) := by
  constructor
  · rintro cur kept rfl rfl hcur hkept
    have hdd : demand_data ≠ [] := by
      intro h
      apply hcur
      rw [h]
      rfl
    have hddE : demand_data.isEmpty = false := by
      cases hE : demand_data.isEmpty
      · rfl
      · exact absurd (List.isEmpty_iff.mp hE) hdd
    have hcurE :
        (demand_data.filter
          (fun d => decide (d.hour = some current_hour))).isEmpty = false := by
      cases hE : (demand_data.filter
          (fun d => decide (d.hour = some current_hour))).isEmpty
      · rfl
      · exact absurd (List.isEmpty_iff.mp hE) hcur
    simp only [get_current_consumption, hddE, Bool.false_eq_true, if_false, hcurE]
    rw [demandLoop_eq _ (fun r hr => hfin r (List.mem_of_mem_filter hr))]
    have hlenpos : 0 <
        ((demand_data.filter (fun d => decide (d.hour = some current_hour))).filter
          (fun r => decide (0 < specRegionalDemand r))).length :=
      List.length_pos.mpr hkept
    rw [if_pos hlenpos]
    have hlq : ((((demand_data.filter
        (fun d => decide (d.hour = some current_hour))).filter
          (fun r => decide (0 < specRegionalDemand r))).length : ℚ)) ≠ 0 :=
      Nat.cast_ne_zero.mpr hlenpos.ne'
    exact safe_float_scale _ _ _ hlq
  · intro hdd hcur
    have hddE : demand_data.isEmpty = false := by
      cases hE : demand_data.isEmpty
      · rfl
      · exact absurd (List.isEmpty_iff.mp hE) hdd
    have hcurE : (demand_data.filter
        (fun d => decide (d.hour = some current_hour))).isEmpty = true := by
      rw [hcur]
      rfl
    simp only [get_current_consumption, hddE, Bool.false_eq_true, if_false, hcurE,
      if_true]

/-- Witness for C4: at hour 6 with one matching 10 MW record and scaling
0.01, consumption is 10 × 1000 × 0.01 = 100 kW; at hour 8 with no matching
record the function returns the interpolation result. -/
theorem get_current_consumption_spec_witness :
    get_current_consumption 6 [sampleRec 6 10, sampleRec 10 20] sampleCfg = 100 ∧
    get_current_consumption 8 [sampleRec 6 10, sampleRec 10 20] sampleCfg =
      interpolate_consumption 8 [sampleRec 6 10, sampleRec 10 20] sampleCfg := by
  have hfin : ∀ r ∈ [sampleRec 6 10, sampleRec 10 20], FiniteRecord r := by
    rintro r hr
    fin_cases hr <;> exact fun i => by fin_cases i <;> simp +decide [sampleRec]
  constructor
  · have h := (get_current_consumption_spec 6 [sampleRec 6 10, sampleRec 10 20]
        sampleCfg hfin).1 _ _ rfl rfl
        (by simp +decide [sampleRec])
        (by simp +decide [sampleRec, specRegionalDemand, specRegionValue, regionIdx])
    rw [h]
    norm_num +decide [sampleRec, sampleCfg, defaultConfig, specRegionalDemand,
      specRegionValue, regionIdx]
  · exact (get_current_consumption_spec 8 [sampleRec 6 10, sampleRec 10 20]
      sampleCfg hfin).2 (by simp) (by simp +decide [sampleRec])

/-- A record every one of whose region entries is null or NaN. -/
def DegenerateRecord (r : DemandRecord) : Prop :=
  ∀ i : Fin 7, r.vals i = DVal.null ∨ r.vals i = DVal.fl PyFloat.nan

/-- A record of nulls and NaNs sums to exactly 0: every entry is skipped,
none is coerced to a counted zero. -/
theorem regionalDemand_degenerate (r : DemandRecord) (hr : DegenerateRecord r) :
    regionalDemand r = PyFloat.num 0 := by
  have aux : ∀ (l : List (Fin 7)) (acc : PyFloat),
      l.foldl (regionStep r) acc = acc := by
    intro l
    induction l with
    | nil => intro acc; rfl
    | cons i l ih =>
        intro acc
        rw [List.foldl_cons]
        rcases hr i with hv | hv <;>
          simp [regionStep, hv, PyFloat.isNaN, ih]
  exact aux regionIdx (PyFloat.num 0)

/-- Over records of nulls and NaNs the averaging loop keeps nothing: the
total stays 0 and the valid-period count stays 0, so no division by a zero
count can occur. -/
theorem demandLoop_degenerate (l : List DemandRecord)
    (hall : ∀ r ∈ l, DegenerateRecord r) :
    demandLoop l = (PyFloat.num 0, 0) := by
  have aux : ∀ (l : List DemandRecord), (∀ r ∈ l, DegenerateRecord r) →
      ∀ (acc : PyFloat × ℕ), l.foldl demandStep acc = acc := by
    intro l
    induction l with
    | nil => intro _ acc; rfl
    | cons r l ih =>
        intro h acc
        rw [List.foldl_cons]
        have hstep : demandStep acc r = acc := by
          simp [demandStep, regionalDemand_degenerate r (h r (List.mem_cons_self r l)),
            PyFloat.gtZero]
        rw [hstep]
        exact ih (fun x hx => h x (List.mem_cons_of_mem r hx)) acc
  exact aux l hall (PyFloat.num 0, 0)

/-- On all-degenerate data every hour's consumption is 0. -/
theorem get_hour_consumption_degenerate (hour : ℤ) (demand_data : List DemandRecord)
    (config : CommunityConfigDocument)
    (hall : ∀ r ∈ demand_data, DegenerateRecord r) :
    get_hour_consumption hour demand_data config = 0 := by
  by_cases hE : (demand_data.filter (fun d => decide (d.hour = some hour))).isEmpty
  · simp only [get_hour_consumption, hE, if_true]
  · simp only [Bool.not_eq_true] at hE
    simp only [get_hour_consumption, hE, Bool.false_eq_true, if_false]
    rw [demandLoop_degenerate _
      (fun r hr => hall r (List.mem_of_mem_filter hr))]
    norm_num

/-- On all-degenerate data interpolation returns 0 in every branch. -/
theorem interpolate_consumption_degenerate (target_hour : ℤ)
    (demand_data : List DemandRecord) (config : CommunityConfigDocument)
    (hall : ∀ r ∈ demand_data, DegenerateRecord r) :
    interpolate_consumption target_hour demand_data config = 0 := by
  have hghc := fun h => get_hour_consumption_degenerate h demand_data config hall
  by_cases hE : (sortHours (dataHours demand_data)).isEmpty
  · simp only [interpolate_consumption, hE, if_true]
  · simp only [Bool.not_eq_true] at hE
    rcases hfba : findBeforeAfter target_hour (sortHours (dataHours demand_data))
        none with ⟨bs, as⟩
    cases bs with
    | none =>
        cases as with
        | none => simp only [interpolate_consumption, hE, Bool.false_eq_true,
            if_false, hfba]
        | some a => simp only [interpolate_consumption, hE, Bool.false_eq_true,
            if_false, hfba, hghc a]
    | some b =>
        cases as with
        | none => simp only [interpolate_consumption, hE, Bool.false_eq_true,
            if_false, hfba, hghc b]
        | some a =>
            simp only [interpolate_consumption, hE, Bool.false_eq_true, if_false,
              hfba, hghc a, hghc b]
            by_cases hab : a = b
            · simp [hab]
            · simp [hab]

/-- C8: on a demand record set in which every region value of every record
is null or NaN, current consumption is exactly 0 for every current hour:
nothing is coerced to a counted zero, no zero-count division occurs, and
the interpolation fallback also yields 0. -/
theorem get_current_consumption_degenerate (current_hour : ℤ)
    (demand_data : List DemandRecord) (config : CommunityConfigDocument)
    (hall : ∀ r ∈ demand_data, DegenerateRecord r) :
    get_current_consumption current_hour demand_data config = 0 := by
  by_cases hdd : demand_data.isEmpty
  · simp only [get_current_consumption, hdd, if_true]
  · simp only [Bool.not_eq_true] at hdd
    by_cases hcur : (demand_data.filter
        (fun d => decide (d.hour = some current_hour))).isEmpty
    · simp only [get_current_consumption, hdd, Bool.false_eq_true, if_false,
        hcur, if_true]
      exact interpolate_consumption_degenerate current_hour demand_data config hall
    · simp only [Bool.not_eq_true] at hcur
      simp only [get_current_consumption, hdd, Bool.false_eq_true, if_false, hcur]
      rw [demandLoop_degenerate _
        (fun r hr => hall r (List.mem_of_mem_filter hr))]
      norm_num

/-- Witness for C8: a record at hour 6 whose regions are one NaN and six
nulls yields consumption 0 at hour 6 (the exact-hour branch) and at hour 9
(the interpolation branch). -/
theorem get_current_consumption_degenerate_witness :
    get_current_consumption 6
        [⟨some 6, fun i => if i = 0 then DVal.fl PyFloat.nan else DVal.null⟩]
        defaultConfig = 0 ∧
    get_current_consumption 9
        [⟨some 6, fun i => if i = 0 then DVal.fl PyFloat.nan else DVal.null⟩]
        defaultConfig = 0 := by
  have hall : ∀ r ∈ [(⟨some 6,
      fun i => if i = 0 then DVal.fl PyFloat.nan else DVal.null⟩ : DemandRecord)],
      DegenerateRecord r := by
    rintro r hr
    fin_cases hr
    exact fun i => by fin_cases i <;> simp +decide
  exact ⟨get_current_consumption_degenerate 6 _ defaultConfig hall,
    get_current_consumption_degenerate 9 _ defaultConfig hall⟩

/-- Rational value of a finite AC power reading (the finiteness hypothesis
of the theorems using this makes the other cases unreachable). -/
def powerValue : PyFloat → ℚ
  | PyFloat.num q => q
  | _ => 0

/-- Spec-side per-plant hourly average as the claim reads it: over the
plant's rows with the given hour and AC_POWER > 0, the mean AC power; 0 when
the plant has no such rows. -/
def spec_plant_hour_avg (hour : ℤ) (plant : List SolarRow) : ℚ :=
  let rows := plant.filter
    (fun d => decide (d.hour = some hour) && d.AC_POWER.gtZero)
  if rows.isEmpty then 0
  else ((rows.map (fun d => powerValue d.AC_POWER)).sum) / (rows.length : ℚ)

/-- A plant series whose AC power fields are all finite numbers. -/
def FiniteAC (plant : List SolarRow) : Prop :=
  ∀ r ∈ plant, ∃ q : ℚ, r.AC_POWER = PyFloat.num q

/-- Summing a list of finite powers with the float addition is the rational
sum. -/
theorem foldl_add_finite :
    ∀ (l : List PyFloat), (∀ f ∈ l, ∃ q : ℚ, f = PyFloat.num q) →
      ∀ (acc : ℚ), l.foldl PyFloat.add (PyFloat.num acc) =
        PyFloat.num (acc + (l.map powerValue).sum) := by
  intro l
  induction l with
  | nil => intro _ acc; simp
  | cons f l ih =>
      intro hfin acc
      obtain ⟨q, rfl⟩ := hfin f (List.mem_cons_self f l)
      rw [List.foldl_cons]
      have hstep : (PyFloat.num acc).add (PyFloat.num q) = PyFloat.num (acc + q) := rfl
      rw [hstep, ih (fun x hx => hfin x (List.mem_cons_of_mem _ hx))]
      rw [List.map_cons, List.sum_cons]
      have hv : powerValue (PyFloat.num q) = q := rfl
      rw [hv]
      congr 1
      ring

/-- On a finite plant series the per-plant inner computation equals the
spec-side hourly average. -/
theorem plant_hour_avg_eq (hour : ℤ) (plant : List SolarRow)
    (hfin : FiniteAC plant) :
    plant_hour_avg hour plant =
      PyFloat.num (spec_plant_hour_avg hour plant) := by
  have hrows : (plant.filter (fun d => decide (d.hour = some hour))).filter
      (fun d => d.AC_POWER.gtZero) =
      plant.filter (fun d => decide (d.hour = some hour) && d.AC_POWER.gtZero) := by
    rw [List.filter_filter]
    exact List.filter_congr (fun d _ => Bool.and_comm _ _)
  by_cases hE : (plant.filter (fun d => decide (d.hour = some hour))).isEmpty
  · have hnil : plant.filter (fun d => decide (d.hour = some hour)) = [] :=
      List.isEmpty_iff.mp hE
    have hrnil : plant.filter
        (fun d => decide (d.hour = some hour) && d.AC_POWER.gtZero) = [] := by
      rw [← hrows, hnil]
      rfl
    simp only [plant_hour_avg, hE, if_true, spec_plant_hour_avg, hrnil]
    rfl
  · simp only [Bool.not_eq_true] at hE
    by_cases hP : ((plant.filter (fun d => decide (d.hour = some hour))).filter
        (fun d => d.AC_POWER.gtZero)).isEmpty
    · have hnilP : (plant.filter (fun d => decide (d.hour = some hour))).filter
          (fun d => d.AC_POWER.gtZero) = [] := List.isEmpty_iff.mp hP
      have hrnil : plant.filter
          (fun d => decide (d.hour = some hour) && d.AC_POWER.gtZero) = [] := by
        rw [← hrows, hnilP]
      have hPmap : (((plant.filter (fun d => decide (d.hour = some hour))).filter
          (fun d => d.AC_POWER.gtZero)).map (fun d => d.AC_POWER)).isEmpty = true := by
        rw [hnilP]
        rfl
      simp only [plant_hour_avg, hE, Bool.false_eq_true, if_false, hPmap, if_true,
        spec_plant_hour_avg, hrnil]
      rfl
    · simp only [Bool.not_eq_true] at hP
      have hrne : plant.filter
          (fun d => decide (d.hour = some hour) && d.AC_POWER.gtZero) ≠ [] := by
        rw [← hrows]
        intro h
        rw [h] at hP
        cases hP
      have hPmap : (((plant.filter (fun d => decide (d.hour = some hour))).filter
          (fun d => d.AC_POWER.gtZero)).map (fun d => d.AC_POWER)).isEmpty = false := by
        rw [hrows]
        cases hE2 : (plant.filter
            (fun d => decide (d.hour = some hour) && d.AC_POWER.gtZero)).map
            (fun d => d.AC_POWER) |>.isEmpty
        · rfl
        · exact absurd (List.map_eq_nil_iff.mp (List.isEmpty_iff.mp hE2)) hrne
      have hrE : (plant.filter
          (fun d => decide (d.hour = some hour) && d.AC_POWER.gtZero)).isEmpty
          = false := by
        cases hE2 : (plant.filter
            (fun d => decide (d.hour = some hour) && d.AC_POWER.gtZero)).isEmpty
        · rfl
        · exact absurd (List.isEmpty_iff.mp hE2) hrne
      simp only [plant_hour_avg, hE, Bool.false_eq_true, if_false, hPmap,
        spec_plant_hour_avg, hrE]
      rw [hrows]
      set rows := plant.filter
        (fun d => decide (d.hour = some hour) && d.AC_POWER.gtZero) with hrowsdef
      have hfinrows : ∀ f ∈ rows.map (fun d => d.AC_POWER), ∃ q : ℚ,
          f = PyFloat.num q := by
        intro f hf
        obtain ⟨d, hd, rfl⟩ := List.mem_map.mp hf
        exact hfin d (List.mem_of_mem_filter hd)
      rw [foldl_add_finite _ hfinrows 0, zero_add]
      have hlen : ((rows.map (fun d => d.AC_POWER)).length : ℚ) ≠ 0 := by
        have : rows.length ≠ 0 := fun h => hrne (List.length_eq_zero.mp h)
        simpa using this
      have hdiv : (PyFloat.num (((rows.map (fun d => d.AC_POWER)).map
          powerValue).sum)).div
          (PyFloat.num ((rows.map (fun d => d.AC_POWER)).length : ℚ)) =
          PyFloat.num ((((rows.map (fun d => d.AC_POWER)).map powerValue).sum) /
            ((rows.map (fun d => d.AC_POWER)).length : ℚ)) := by
        simp only [PyFloat.div]
        rw [if_neg hlen]
      rw [hdiv]
      rw [List.map_map, List.length_map]
      rfl

/-- C3 counterexample: with plant 1 holding one row (hour 10, AC power 100)
and plant 2's hourly series empty, the claim's sum-of-averages is 100, but
the function returns 0 — the guard `if not plant_1_data or not plant_2_data`
zeroes the result whenever either series is empty. -/
theorem get_current_generation_empty_plant_counterexample :
    get_current_generation 10 [⟨some 10, PyFloat.num 100⟩] [] = 0 ∧
    spec_plant_hour_avg 10 [⟨some 10, PyFloat.num 100⟩] +
      spec_plant_hour_avg 10 ([] : List SolarRow) = 100 ∧
    get_current_generation 10 [⟨some 10, PyFloat.num 100⟩] [] ≠
      spec_plant_hour_avg 10 [⟨some 10, PyFloat.num 100⟩] +
        spec_plant_hour_avg 10 ([] : List SolarRow) := by
  refine ⟨rfl, ?_, ?_⟩
  · norm_num +decide [spec_plant_hour_avg, powerValue, PyFloat.gtZero]
  · norm_num +decide [get_current_generation, spec_plant_hour_avg, powerValue,
      PyFloat.gtZero]

/-- C3 amended: current generation is 0 whenever either plant's hourly
series is empty, and otherwise equals the sum over the two plants of the
average AC power of rows with the current hour and AC power > 0 (a plant
without such rows contributing 0), with no scaling applied. -/
theorem get_current_generation_spec (current_hour : ℤ)
    (plant_1_data plant_2_data : List SolarRow) :
    (plant_1_data = [] ∨ plant_2_data = [] →
      get_current_generation current_hour plant_1_data plant_2_data = 0) ∧
    (plant_1_data ≠ [] → plant_2_data ≠ [] →
      FiniteAC plant_1_data → FiniteAC plant_2_data →
      get_current_generation current_hour plant_1_data plant_2_data =
        spec_plant_hour_avg current_hour plant_1_data +
          spec_plant_hour_avg current_hour plant_2_data) := by
  constructor
  · rintro (rfl | rfl)
    · rfl
    · simp only [get_current_generation, List.isEmpty_nil, Bool.or_true, if_true]
  · intro h1 h2 hf1 hf2
    have h1E : plant_1_data.isEmpty = false := by
      cases hE : plant_1_data.isEmpty
      · rfl
      · exact absurd (List.isEmpty_iff.mp hE) h1
    have h2E : plant_2_data.isEmpty = false := by
      cases hE : plant_2_data.isEmpty
      · rfl
      · exact absurd (List.isEmpty_iff.mp hE) h2
    simp only [get_current_generation, h1E, h2E, Bool.or_self, Bool.false_eq_true,
      if_false]
    rw [plant_hour_avg_eq current_hour plant_1_data hf1,
      plant_hour_avg_eq current_hour plant_2_data hf2]
    rfl

/-- Witness for C3 amended: two nonempty plants with single rows at hour 10
of 100 kW and 50 kW average to 100 and 50, summing to 150. -/
theorem get_current_generation_spec_witness :
    get_current_generation 10 [⟨some 10, PyFloat.num 100⟩]
      [⟨some 10, PyFloat.num 50⟩] = 150 := by
  have h := (get_current_generation_spec 10 [⟨some 10, PyFloat.num 100⟩]
      [⟨some 10, PyFloat.num 50⟩]).2 (by simp) (by simp)
      (by rintro r hr; fin_cases hr; exact ⟨100, rfl⟩)
      (by rintro r hr; fin_cases hr; exact ⟨50, rfl⟩)
  rw [h]
  norm_num +decide [spec_plant_hour_avg, powerValue, PyFloat.gtZero]

/-- One metric request served by the `DataPresentationService` instance:
`get_current_consumption` calls `self._get_config()`, which returns the
shared configuration document (caching only the reference), and reads
`regional_to_community_scaling` from it at call time.  Returns the metric
and the post-request state. -/
def query_current_consumption (hour : ℤ) (demand_data : List DemandRecord)
    (s : SysState) : ℚ × SysState :=
  (get_current_consumption hour demand_data s.config,
    { s with svcConfigCached := true })

/-- C5: in the sequence metric query → successful configuration update
setting regional_to_community_scaling to an in-range value v → second
metric query on the same service instance, the update succeeds and the
second query is computed against a configuration whose
regional_to_community_scaling is v: the update is visible without a
restart, because the service's cached `_config` is a reference to the very
document `update_config` mutates in place. -/
theorem config_update_visible (s0 : SysState) (demand_data : List DemandRecord)
    (hour : ℤ) (v : ℚ) (hlo : 1/100000 ≤ v) (hhi : v ≤ 1/100) :
    (update_community_config (query_current_consumption hour demand_data s0).2
        [("regional_to_community_scaling", v)]).1 = Except.ok () ∧
    ∃ cfg : CommunityConfigDocument,
      cfg.regional_to_community_scaling = v ∧
      (query_current_consumption hour demand_data
        (update_community_config
          (query_current_consumption hour demand_data s0).2
          [("regional_to_community_scaling", v)]).2).1 =
        get_current_consumption hour demand_data cfg := by
  have hfil : ([(("regional_to_community_scaling" : String), v)]).filter
      (fun kv => (lookupBounds kv.1).isSome) =
      [(("regional_to_community_scaling" : String), v)] := by
    simp [lookupBounds, boundsTable, List.lookup]
  have hin : inBounds "regional_to_community_scaling" v = true := by
    simp [inBounds, lookupBounds, boundsTable, List.lookup]
    constructor
    · rw [inv_eq_one_div]
      exact hlo
    · rw [inv_eq_one_div]
      exact hhi
  have hcb : checkBounds [(("regional_to_community_scaling" : String), v)] =
      Except.ok () := by
    simp [checkBounds, hin]
  have hcc : crossChecks [(("regional_to_community_scaling" : String), v)] =
      Except.ok () := by
    simp [crossChecks, List.lookup]
  have hupd : ∀ c : CommunityConfigDocument,
      update_and_calculate c [(("regional_to_community_scaling" : String), v)] =
      Except.ok (calculate_derived_values
        { c with regional_to_community_scaling := v }) := by
    intro c
    simp [update_and_calculate, setField]
  constructor
  · simp only [update_community_config, hfil, hcb, hcc, List.isEmpty_cons,
      Bool.false_eq_true, if_false, hupd]
  · refine ⟨calculate_derived_values
      { (query_current_consumption hour demand_data s0).2.config with
        regional_to_community_scaling := v }, rfl, ?_⟩
    simp only [update_community_config, hfil, hcb, hcc, List.isEmpty_cons,
      Bool.false_eq_true, if_false, hupd]
    rfl

/-- Witness for C5 at the default configuration, one 10 MW record at hour 6
and v = 1/200. -/
theorem config_update_visible_witness :
    (update_community_config
        (query_current_consumption 6 [sampleRec 6 10]
          ⟨defaultConfig, false, false⟩).2
        [("regional_to_community_scaling", 1/200)]).1 = Except.ok () ∧
    ∃ cfg : CommunityConfigDocument,
      cfg.regional_to_community_scaling = 1/200 ∧
      (query_current_consumption 6 [sampleRec 6 10]
        (update_community_config
          (query_current_consumption 6 [sampleRec 6 10]
            ⟨defaultConfig, false, false⟩).2
          [("regional_to_community_scaling", 1/200)]).2).1 =
        get_current_consumption 6 [sampleRec 6 10] cfg :=
  config_update_visible ⟨defaultConfig, false, false⟩ [sampleRec 6 10] 6 (1/200)
    (by norm_num) (by norm_num)
